import Mathlib

/-!
Verification of the permission-enforcing hierarchical key-value store
(`src/store.ts`).

The TypeScript source is shallowly embedded as follows.

* `Perm` models the `Permission` string union of "r", "w", "rw", "none";
  `permIncludesR p` / `permIncludesW p` model `p.includes("r")` /
  `p.includes("w")` on those four strings.
* `JSVal` models the runtime values a store field can hold: `undefined`,
  `null`, booleans, numbers (as `Int`; no claim involves non-integral
  numbers), strings, plain JSON objects (as association lists in insertion
  order), nested `Store` instances, and zero-argument functions.  A
  zero-argument function `() => e` is modelled as the pure thunk
  `JSVal.fn v` that returns `v` when invoked; JSON arrays and the built-in
  properties of primitives (such as `"length"` on strings) are not
  addressed by any claim and are not modelled as traversable containers.
* A `Store` instance is its `defaultPolicy`, its permission registry
  (the `Reflect` metadata written by `Restrict`, an association list from
  field name to declared permission) and its own data fields.  The
  `defaultPolicy` own-property and the prototype methods of the TS object
  are modelled as metadata, not as addressable data fields.
* JavaScript property access `current[key]` is `getProp`: it raises
  `TypeError` on `undefined`/`null` and yields `undefined` for an absent
  key or a primitive receiver.  Property assignment is `setProp`; in
  strict mode (TS class bodies) assignment to a property of a primitive
  raises `TypeError`.
* Mutation is modelled by explicit state passing: `performWrite` returns
  the updated container together with an optional error, and `Store.write`
  returns the updated store together with an optional error (the JS method
  returns the written value on success and throws on error).
* `path.split(":")` and `keys.slice(1).join(":")` are `jsSplit` and
  `joinSegs` (defined structurally so that they evaluate by `rfl`).
-/

/-- The `Permission` type: the string union of "r", "w", "rw" and "none". -/
inductive Perm where
  | r
  | w
  | rw
  | none
deriving DecidableEq, Repr

/-- Models `p.includes("r")` on the four permission strings. -/
def permIncludesR : Perm → Bool
  | .r => true
  | .rw => true
  | .w => false
  | .none => false

/-- Models `p.includes("w")` on the four permission strings. -/
def permIncludesW : Perm → Bool
  | .w => true
  | .rw => true
  | .r => false
  | .none => false

/-- Errors thrown by the store engine: the two `Error` values thrown by
`read`/`write` on a failed permission check, and the JavaScript `TypeError`
raised by property access on `undefined`/`null` (or by strict-mode property
assignment on a primitive). -/
inductive StoreError where
  | noPermissionRead
  | noPermissionWrite
  | typeError
deriving DecidableEq, Repr

/-- Runtime values held by store fields (`StoreValue` in the source):
nested stores carry their default policy, their permission metadata and
their fields. -/
inductive JSVal where
  | undefined
  | jsNull
  | boolV (b : Bool)
  | numV (n : Int)
  | strV (s : String)
  | obj (fields : List (String × JSVal))
  | store (defaultPolicy : Perm) (perms : List (String × Perm))
      (fields : List (String × JSVal))
  | fn (ret : JSVal)

/-- Models `v instanceof Store`. -/
def JSVal.isStore : JSVal → Bool
  | .store _ _ _ => true
  | _ => false

/-- Models `v instanceof Function`. -/
def JSVal.isFn : JSVal → Bool
  | .fn _ => true
  | _ => false

/-- JavaScript truthiness of a value (`undefined`, `null`, `false`, `0`
and `""` are falsy). -/
def truthy : JSVal → Bool
  | .undefined => false
  | .jsNull => false
  | .boolV b => b
  | .numV n => n != 0
  | .strV s => s != ""
  | _ => true

/-- Association-list lookup of an own property (JS objects keep unique
keys; the first binding wins). -/
def lookupField : List (String × JSVal) → String → Option JSVal
  | [], _ => Option.none
  | (k', v) :: rest, k => if k' = k then some v else lookupField rest k

/-- Property read on an object: an absent key yields `undefined`. -/
def lookupD (l : List (String × JSVal)) (k : String) : JSVal :=
  (lookupField l k).getD .undefined

/-- Property assignment on an association list: overwrite in place,
append a new key at the end (JS insertion order). -/
def setField : List (String × JSVal) → String → JSVal → List (String × JSVal)
  | [], k, v => [(k, v)]
  | (k', w) :: rest, k, v =>
    if k' = k then (k, v) :: rest else (k', w) :: setField rest k v

/-- Lookup in the permission registry (the `Reflect.getMetadata` call). -/
def lookupPerm : List (String × Perm) → String → Option Perm
  | [], _ => Option.none
  | (k', p) :: rest, k => if k' = k then some p else lookupPerm rest k

/-- JavaScript property access `current[key]`: throws `TypeError` on
`undefined`/`null`; yields the field on objects and stores (absent keys
give `undefined`); yields `undefined` on primitives and functions. -/
def getProp : JSVal → String → Except StoreError JSVal
  | .undefined, _ => .error .typeError
  | .jsNull, _ => .error .typeError
  | .obj l, k => .ok (lookupD l k)
  | .store _ _ f, k => .ok (lookupD f k)
  | _, _ => .ok .undefined

/-- JavaScript property assignment `current[key] = v` (strict mode):
succeeds on objects and stores, raises `TypeError` on `undefined`, `null`
and primitives.  Properties set on function objects are legal in JS but
unobservable through `getProp`, so they are dropped. -/
def setProp : JSVal → String → JSVal → Option JSVal
  | .obj l, k, v => some (.obj (setField l k v))
  | .store d p f, k, v => some (.store d p (setField f k v))
  | .fn r, _, _ => some (.fn r)
  | _, _, _ => Option.none

/-- Total version of `setProp` used where the receiver is known to be a
container (in-place mutation of a looked-up object). -/
def setPropD (c : JSVal) (k : String) (v : JSVal) : JSVal :=
  (setProp c k v).getD c

/-- Models the auto-vivification expression, `current[key]` or-else empty object, in
`performWrite`: keeps a truthy value, replaces a falsy one by a fresh
empty plain object. -/
def vivify (old : JSVal) : JSVal :=
  if truthy old then old else .obj []

/-- Models the final check `result instanceof Function`, invoking the
lazy-value unwrap in `read`. -/
def callIfFn : JSVal → JSVal
  | .fn r => r
  | v => v

/-- A `Store` instance: its `defaultPolicy`, its permission metadata and
its own data fields. -/
structure Store where
  defaultPolicy : Perm
  perms : List (String × Perm)
  fields : List (String × JSVal)

/-- The store viewed as a JavaScript value. -/
def Store.toVal (s : Store) : JSVal :=
  .store s.defaultPolicy s.perms s.fields

/-- Models `v instanceof Store` with the instance extracted. -/
def asStore : JSVal → Option Store
  | .store d p f => some ⟨d, p, f⟩
  | _ => Option.none

/-- Repackage a store-shaped value as a `Store` (the result of
`performWrite` on a store is always store-shaped; the fallback is never
reached). -/
def JSVal.toStoreD : JSVal → Store → Store
  | .store d p f, _ => ⟨d, p, f⟩
  | _, s => s

/-- Models `path.split(":")` on the underlying character list. -/
def splitColon : List Char → List String
  | [] => [""]
  | c :: rest =>
    let r := splitColon rest
    if c = ':' then "" :: r
    else
      match r with
      | [] => [String.mk [c]]
      | s :: tail => String.mk (c :: s.data) :: tail

/-- Models `path.split(":")`. -/
def jsSplit (s : String) : List String :=
  splitColon s.data

/-- Models `segments.join(":")`. -/
def joinSegs : List String → String
  | [] => ""
  | [s] => s
  | s :: rest => s ++ ":" ++ joinSegs rest

/-- Models `keys[0]` under JavaScript semantics: indexing past the end yields
`undefined`, which the subsequent property access coerces to the string
`"undefined"` (this only matters for the unreachable empty-key case). -/
def headKey (keys : List String) : String :=
  keys.headD "undefined"

/-- Models `allowedToRead`: a declared permission (always truthy) wins, else the
store's `defaultPolicy` decides. -/
def Store.allowedToRead (s : Store) (key : String) : Bool :=
  match lookupPerm s.perms key with
  | some p => permIncludesR p
  | Option.none => permIncludesR s.defaultPolicy

/-- Models `allowedToWrite`: symmetric to `allowedToRead`. -/
def Store.allowedToWrite (s : Store) (key : String) : Bool :=
  match lookupPerm s.perms key with
  | some p => permIncludesW p
  | Option.none => permIncludesW s.defaultPolicy

/-- Size of a value found by association-list lookup, for termination. -/
theorem lookupField_size {l : List (String × JSVal)} {k : String} {v : JSVal}
    (h : lookupField l k = some v) : sizeOf v < sizeOf l := by
  induction l with
  | nil => simp [lookupField] at h
  | cons a rest ih =>
    obtain ⟨k', w⟩ := a
    simp only [lookupField] at h
    split at h
    · cases h
      simp only [List.cons.sizeOf_spec, Prod.mk.sizeOf_spec]
      omega
    · have := ih h
      simp only [List.cons.sizeOf_spec, Prod.mk.sizeOf_spec]
      omega

/-- A successful property access yields `undefined` or a structurally
smaller value. -/
theorem getProp_size {c : JSVal} {k : String} {v : JSVal}
    (h : getProp c k = .ok v) : v = .undefined ∨ sizeOf v < sizeOf c := by
  cases c with
  | obj l =>
    simp only [getProp, Except.ok.injEq] at h
    subst h
    unfold lookupD
    cases hl : lookupField l k with
    | none => left; rfl
    | some w =>
      right
      have := lookupField_size hl
      simp only [Option.getD_some, JSVal.obj.sizeOf_spec]
      omega
  | store d p f =>
    simp only [getProp, Except.ok.injEq] at h
    subst h
    unfold lookupD
    cases hl : lookupField f k with
    | none => left; rfl
    | some w =>
      right
      have := lookupField_size hl
      simp only [Option.getD_some, JSVal.store.sizeOf_spec]
      omega
  | undefined => simp [getProp] at h
  | jsNull => simp [getProp] at h
  | boolV b => simp only [getProp, Except.ok.injEq] at h; left; exact h.symm
  | numV n => simp only [getProp, Except.ok.injEq] at h; left; exact h.symm
  | strV s => simp only [getProp, Except.ok.injEq] at h; left; exact h.symm
  | fn r => simp only [getProp, Except.ok.injEq] at h; left; exact h.symm

/-- Models `performRead` specialised to an exhausted key list: `keys[0]` is the
string `"undefined"`, and the `Store`/`Function` branches recurse with the
key list still empty (`keys.slice(1)` of `[]` is `[]`). -/
def performReadEmpty (current : JSVal) : Except StoreError JSVal :=
  match h : getProp current "undefined" with
  | .error e => .error e
  | .ok (.store d p f) => performReadEmpty (.store d p f)
  | .ok (.fn r) => performReadEmpty r
  | .ok v => .ok v
termination_by sizeOf current
decreasing_by
  · rcases getProp_size h with h' | h'
    · cases h'
    · exact h'
  · rcases getProp_size h with h' | h'
    · cases h'
    · simp only [JSVal.fn.sizeOf_spec] at h'
      omega

/-- Models `Store.performRead(keys, current)`, case split on the length of
`keys`: the `Store` branch recurses with `keys.slice(1)`, the `Function`
branch invokes the thunk (returning its result when `keys.length === 1`,
recursing into it otherwise), a longer path recurses into the plain
value, and otherwise the value itself is returned. -/
def performRead : List String → JSVal → Except StoreError JSVal
  | [], current => performReadEmpty current
  | [k], current =>
    match getProp current k with
    | .error e => .error e
    | .ok (.store d p f) => performReadEmpty (.store d p f)
    | .ok (.fn r) => .ok r
    | .ok v => .ok v
  | k :: rest, current =>
    match getProp current k with
    | .error e => .error e
    | .ok (.store d p f) => performRead rest (.store d p f)
    | .ok (.fn r) => performRead rest r
    | .ok v => performRead rest v

/-- Models `Store.performWrite(keys, value, current)`: returns the mutated
container together with an optional error.  With segments remaining, a
nested `Store` is recursed into in place; otherwise the entry is
auto-vivified by assigning `current[key]` or-else a fresh empty object back to the entry before recursing;
with one segment left the value is assigned directly.  The empty-key case
(`keys[0]` is `undefined`) assigns to the `"undefined"` property and is
unreachable from `write`. -/
def performWrite : List String → JSVal → JSVal → JSVal × Option StoreError
  | [], v, current =>
    match setProp current "undefined" v with
    | some c => (c, Option.none)
    | Option.none => (current, some .typeError)
  | [k], v, current =>
    match setProp current k v with
    | some c => (c, Option.none)
    | Option.none => (current, some .typeError)
  | k :: rest, v, current =>
    match getProp current k with
    | .error e => (current, some e)
    | .ok old =>
      if old.isStore then
        let pr := performWrite rest v old
        (setPropD current k pr.1, pr.2)
      else
        let entry := vivify old
        match setProp current k entry with
        | Option.none => (current, some .typeError)
        | some c1 =>
          let pr := performWrite rest v entry
          (setPropD c1 k pr.1, pr.2)

/-- Size of the store extracted from a looked-up field, for the
termination of the delegating `read`/`write`. -/
theorem asStore_lookupD_size {l : List (String × JSVal)} {k : String}
    {t : Store} (h : asStore (lookupD l k) = some t) : sizeOf t < sizeOf l := by
  unfold lookupD at h
  cases hl : lookupField l k with
  | none => rw [hl] at h; simp [asStore] at h
  | some w =>
    rw [hl] at h
    have hw := lookupField_size hl
    cases w with
    | store d p f =>
      simp only [Option.getD_some, asStore, Option.some.injEq] at h
      subst h
      simp only [JSVal.store.sizeOf_spec] at hw
      simp only [Store.mk.sizeOf_spec]
      omega
    | undefined => simp [asStore] at h
    | jsNull => simp [asStore] at h
    | boolV b => simp [asStore] at h
    | numV n => simp [asStore] at h
    | strV s => simp [asStore] at h
    | obj f => simp [asStore] at h
    | fn r => simp [asStore] at h

/-- Models `Store.read(path)`: split the path, delegate to a nested store when
the path has several segments and the first names one (no permission
check of this store in that case), otherwise check `allowedToRead` on the
first segment, resolve the value (nested traversal for longer paths,
direct lookup otherwise), and invoke a function-valued result. -/
def Store.read (s : Store) (path : String) : Except StoreError JSVal :=
  match h : (if 1 < (jsSplit path).length then
      asStore (lookupD s.fields (headKey (jsSplit path)))
    else Option.none) with
  | some t => t.read (joinSegs ((jsSplit path).drop 1))
  | Option.none =>
    if s.allowedToRead (headKey (jsSplit path)) then
      match (if 1 < (jsSplit path).length then performRead (jsSplit path) s.toVal
             else .ok (lookupD s.fields (headKey (jsSplit path)))) with
      | .ok r => .ok (callIfFn r)
      | .error e => .error e
    else .error .noPermissionRead
termination_by sizeOf s
decreasing_by
  split at h
  · obtain ⟨d, p, f⟩ := s
    have := asStore_lookupD_size h
    simp only [Store.mk.sizeOf_spec] at *
    omega
  · cases h

/-- Models `Store.write(path, value)`: same delegation rule as `read` (the
nested store is mutated in place, so the outer field keeps the updated
nested store), otherwise check `allowedToWrite` on the first segment and
perform the nested write.  Returns the updated store and an optional
error; the JS method returns `value` on success. -/
def Store.write (s : Store) (path : String) (v : JSVal) :
    Store × Option StoreError :=
  match h : (if 1 < (jsSplit path).length then
      asStore (lookupD s.fields (headKey (jsSplit path)))
    else Option.none) with
  | some t =>
    ({ s with fields := (setField s.fields (headKey (jsSplit path))
        ((t.write (joinSegs ((jsSplit path).drop 1)) v).1.toVal)) },
     (t.write (joinSegs ((jsSplit path).drop 1)) v).2)
  | Option.none =>
    if s.allowedToWrite (headKey (jsSplit path)) then
      ((performWrite (jsSplit path) v s.toVal).1.toStoreD s,
       (performWrite (jsSplit path) v s.toVal).2)
    else (s, some .noPermissionWrite)
termination_by sizeOf s
decreasing_by
  split at h
  · obtain ⟨d, p, f⟩ := s
    have := asStore_lookupD_size h
    simp only [Store.mk.sizeOf_spec] at *
    omega
  · cases h

/-- Models `Store.entries()`: only fields that carry permission metadata and
pass `allowedToRead`. -/
def Store.entries (s : Store) : List (String × JSVal) :=
  s.fields.filter fun kv => (lookupPerm s.perms kv.1).isSome && s.allowedToRead kv.1

/-- Models `Store.writeEntries(entries)`: unchecked direct assignment of each
entry as a top-level field. -/
def Store.writeEntries (s : Store) (entries : List (String × JSVal)) : Store :=
  entries.foldl (fun acc kv => { acc with fields := setField acc.fields kv.1 kv.2 }) s

/-- The permission strings accepted by `Restrict`
(the array literal the source checks membership in). -/
def validPerms : List String := ["r", "w", "rw", "none"]

/-- Parse one of the four valid permission strings. -/
def parsePerm (p : String) : Option Perm :=
  if p = "r" then some .r
  else if p = "w" then some .w
  else if p = "rw" then some .rw
  else if p = "none" then some Perm.none
  else Option.none

/-- Models `Restrict(permission?)`: at decoration time, a truthy permission
string outside the valid set throws `Invalid permission: ...` before any
metadata is written; a falsy one (the argument missing, or the empty
string, which JavaScript truthiness conflates with it) normalizes to
`"none"`.  On success the returned decorator registers the resulting
permission. -/
def Restrict (permission : Option String) : Except String Perm :=
  match permission with
  | some p =>
    if p ≠ "" then
      match parsePerm p with
      | some q => .ok q
      | Option.none => .error ("Invalid permission: " ++ p)
    else .ok Perm.none
  | Option.none => .ok Perm.none

/-- Applying `Restrict` to a field of a registry: a throwing declaration
leaves the registry untouched, a successful one associates the
(normalized) permission with the field. -/
def restrictDecl (perms : List (String × Perm)) (key : String)
    (permission : Option String) : List (String × Perm) × Option String :=
  match Restrict permission with
  | .error e => (perms, some e)
  | .ok q => ((key, q) :: perms, Option.none)

/-- Models `new Store()`: no fields, no declarations, and the initializer sets `defaultPolicy` to `"rw"`. -/
def Store.new : Store := ⟨.rw, [], []⟩

/-- Property access only ever throws `TypeError`. -/
theorem getProp_err {c : JSVal} {k : String} {e : StoreError}
    (h : getProp c k = .error e) : e = .typeError := by
  cases c <;> simp_all [getProp]

/-- Bounded-size auxiliary for `performReadEmpty_err`. -/
theorem prEmpty_err_aux : ∀ n c e, sizeOf c ≤ n →
    performReadEmpty c = .error e → e = .typeError := by
  intro n
  induction n with
  | zero =>
    intro c e hle h
    exact absurd hle (by cases c <;> simp_arith)
  | succ n ih =>
    intro c e hle h
    unfold performReadEmpty at h
    split at h
    · next e0 heq =>
      cases h
      exact getProp_err heq
    · next d p f heq =>
      have hs := getProp_size heq
      refine ih _ e ?_ h
      rcases hs with h' | h'
      · simp at h'
      · omega
    · next r heq =>
      have hs := getProp_size heq
      refine ih _ e ?_ h
      rcases hs with h' | h'
      · simp at h'
      · simp only [JSVal.fn.sizeOf_spec] at h'
        omega
    · simp at h

/-- The empty-key traversal never raises a permission error. -/
theorem performReadEmpty_err {c : JSVal} {e : StoreError}
    (h : performReadEmpty c = .error e) : e = .typeError :=
  prEmpty_err_aux (sizeOf c) c e (Nat.le_refl _) h

/-- The nested read traversal performs no permission check: the only
error it can raise is a `TypeError`. -/
theorem performRead_err : ∀ (keys : List String) (c : JSVal) (e : StoreError),
    performRead keys c = .error e → e = .typeError := by
  intro keys
  induction keys with
  | nil => intro c e h; exact performReadEmpty_err h
  | cons k rest ih =>
    intro c e h
    cases rest with
    | nil =>
      unfold performRead at h
      split at h
      · next e0 heq => cases h; exact getProp_err heq
      · next d p f heq => exact performReadEmpty_err h
      · simp at h
      · simp at h
    | cons j rest' =>
      unfold performRead at h
      split at h
      · next e0 heq => cases h; exact getProp_err heq
      · next d p f heq => exact ih _ _ h
      · next r heq => exact ih _ _ h
      · next v heq h1 h2 => exact ih _ _ h

/-- The nested write traversal performs no permission check: the only
error it can raise is a `TypeError`. -/
theorem performWrite_err : ∀ (keys : List String) (v c : JSVal) (e : StoreError),
    (performWrite keys v c).2 = some e → e = .typeError := by
  intro keys
  induction keys with
  | nil =>
    intro v c e h
    unfold performWrite at h
    split at h <;> simp_all
  | cons k rest ih =>
    intro v c e h
    cases rest with
    | nil =>
      unfold performWrite at h
      split at h <;> simp_all
    | cons j rest' =>
      unfold performWrite at h
      split at h
      · next e0 heq => simp only at h; cases h; exact getProp_err heq
      · next old heq =>
        simp only at h
        split at h
        · exact ih _ _ _ h
        · split at h
          · next heq2 => simp only at h; cases h; rfl
          · next c1 heq2 => exact ih _ _ _ h

/-- Looking up a key just written returns the written value. -/
theorem lookupField_setField_self (l : List (String × JSVal)) (k : String)
    (v : JSVal) : lookupField (setField l k v) k = some v := by
  induction l with
  | nil => simp [setField, lookupField]
  | cons a rest ih =>
    obtain ⟨k', w⟩ := a
    by_cases hk : k' = k
    · subst hk
      simp [setField, lookupField]
    · simp [setField, lookupField, hk, ih]

/-- Writing the same key twice keeps only the second write. -/
theorem setField_setField (l : List (String × JSVal)) (k : String)
    (a b : JSVal) : setField (setField l k a) k b = setField l k b := by
  induction l with
  | nil => simp [setField]
  | cons p rest ih =>
    obtain ⟨k', w⟩ := p
    by_cases hk : k' = k
    · subst hk
      simp [setField]
    · simp [setField, hk, ih]

/-- A value that is not a `Store` instance fails `instanceof Store`. -/
theorem asStore_none {v : JSVal} (h : v.isStore = false) :
    asStore v = Option.none := by
  cases v <;> simp_all [JSVal.isStore, asStore]

/-- A store viewed as a value is recognised as that store. -/
theorem asStore_toVal (s : Store) : asStore s.toVal = some s := rfl

/-- Claim C4: for a field with no explicit permission declaration,
`allowedToRead`/`allowedToWrite` exactly mirror the store's
`defaultPolicy` (`rw` gives read and write, `r` gives read only, `w`
gives write only, `none` gives neither); for a declared field, the
declared permission alone decides both predicates by the same table,
regardless of `defaultPolicy`. -/
theorem claim_C4_permission_table (s : Store) (key : String) :
    (lookupPerm s.perms key = Option.none →
      ((s.defaultPolicy = .rw → s.allowedToRead key = true ∧ s.allowedToWrite key = true) ∧
       (s.defaultPolicy = .r → s.allowedToRead key = true ∧ s.allowedToWrite key = false) ∧
       (s.defaultPolicy = .w → s.allowedToRead key = false ∧ s.allowedToWrite key = true) ∧
       (s.defaultPolicy = Perm.none → s.allowedToRead key = false ∧ s.allowedToWrite key = false))) ∧
    (∀ p, lookupPerm s.perms key = some p →
      ((p = .rw → s.allowedToRead key = true ∧ s.allowedToWrite key = true) ∧
       (p = .r → s.allowedToRead key = true ∧ s.allowedToWrite key = false) ∧
       (p = .w → s.allowedToRead key = false ∧ s.allowedToWrite key = true) ∧
       (p = Perm.none → s.allowedToRead key = false ∧ s.allowedToWrite key = false))) := by
  constructor
  · intro h
    refine ⟨?_, ?_, ?_, ?_⟩ <;> intro hd <;>
      simp [Store.allowedToRead, Store.allowedToWrite, h, hd, permIncludesR, permIncludesW]
  · intro p h
    refine ⟨?_, ?_, ?_, ?_⟩ <;> intro hd <;> subst hd <;>
      simp [Store.allowedToRead, Store.allowedToWrite, h, permIncludesR, permIncludesW]

/-- Witness for C4: a field declared `r` on a store whose default policy
is `none` is readable and not writable. -/
theorem claim_C4_permission_table_witness :
    (Store.mk Perm.none [("a", Perm.r)] []).allowedToRead "a" = true ∧
    (Store.mk Perm.none [("a", Perm.r)] []).allowedToWrite "a" = false :=
  ((claim_C4_permission_table ⟨Perm.none, [("a", Perm.r)], []⟩ "a").2 Perm.r
    (by decide)).2.1 rfl

/-- Claim C10: a newly constructed store has `defaultPolicy = "rw"`, so
before any declaration every field is readable and writable and neither
`read` nor `write` can fail with a permission error at this store's own
boundary. -/
theorem claim_C10_default_policy :
    Store.new.defaultPolicy = .rw ∧
    (∀ key, Store.new.allowedToRead key = true ∧ Store.new.allowedToWrite key = true) ∧
    (∀ path, Store.new.read path ≠ .error .noPermissionRead) ∧
    (∀ path v, (Store.new.write path v).2 ≠ some .noPermissionWrite) := by
  refine ⟨rfl, ?_, ?_, ?_⟩
  · intro key
    exact ⟨rfl, rfl⟩
  · intro path h
    unfold Store.read at h
    simp only [Store.new, lookupD, lookupField, Option.getD_none, asStore, ite_self] at h
    split at h
    · next t heq => simp at heq
    · next heq =>
      simp only [Store.allowedToRead, lookupPerm, permIncludesR, if_true] at h
      split at h
      · simp at h
      · next e heq2 =>
        simp only [Except.error.injEq] at h
        subst h
        split at heq2
        · exact absurd (performRead_err _ _ _ heq2) (by simp)
        · simp at heq2
  · intro path v h
    unfold Store.write at h
    simp only [Store.new, lookupD, lookupField, Option.getD_none, asStore, ite_self] at h
    split at h
    · next t heq => simp at heq
    · next heq =>
      simp only [Store.allowedToWrite, lookupPerm, permIncludesW, if_true] at h
      exact absurd (performWrite_err _ _ _ _ h) (by simp)

/-- Witness for C10: concrete instances of the universally quantified
parts at field `"a"` and path `"a:b"`. -/
theorem claim_C10_default_policy_witness :
    Store.new.allowedToRead "a" = true ∧
    Store.new.read "a:b" ≠ .error .noPermissionRead ∧
    (Store.new.write "a:b" (JSVal.numV 1)).2 ≠ some .noPermissionWrite :=
  ⟨(claim_C10_default_policy.2.1 "a").1,
   claim_C10_default_policy.2.2.1 "a:b",
   claim_C10_default_policy.2.2.2 "a:b" (JSVal.numV 1)⟩

/-- Claim C7: `entries()` keeps exactly the top-level fields that both
carry an explicit permission declaration and pass `allowedToRead`; a
field with no declaration is excluded even when the default policy makes
it readable via `read`. -/
theorem claim_C7_entries_filter (s : Store) (k : String) (v : JSVal) :
    ((k, v) ∈ s.entries ↔
      (k, v) ∈ s.fields ∧ (lookupPerm s.perms k).isSome = true ∧
        s.allowedToRead k = true) ∧
    (lookupPerm s.perms k = Option.none → ¬ ∃ w, (k, w) ∈ s.entries) := by
  constructor
  · unfold Store.entries
    rw [List.mem_filter]
    simp [and_assoc]
  · rintro h ⟨w, hw⟩
    unfold Store.entries at hw
    rw [List.mem_filter] at hw
    simp [h] at hw

/-- Witness for C7: on a store with declared readable field `"a"` and
undeclared field `"b"` under a `rw` default policy, `entries` contains
`"a"` and excludes `"b"` (though `read` would allow it). -/
theorem claim_C7_entries_filter_witness :
    ("a", JSVal.numV 1) ∈
      (Store.mk .rw [("a", Perm.rw)] [("a", .numV 1), ("b", .numV 2)]).entries ∧
    (¬ ∃ w, ("b", w) ∈
      (Store.mk .rw [("a", Perm.rw)] [("a", .numV 1), ("b", .numV 2)]).entries) ∧
    (Store.mk .rw [("a", Perm.rw)] [("a", .numV 1), ("b", .numV 2)]).allowedToRead "b" = true :=
  ⟨(claim_C7_entries_filter ⟨.rw, [("a", Perm.rw)], [("a", .numV 1), ("b", .numV 2)]⟩
      "a" (.numV 1)).1.mpr ⟨by simp, rfl, rfl⟩,
   (claim_C7_entries_filter ⟨.rw, [("a", Perm.rw)], [("a", .numV 1), ("b", .numV 2)]⟩
      "b" (.numV 2)).2 rfl,
   rfl⟩

/-- Counterexample for C8: the empty string is outside the valid
permission set, yet `Restrict` applied to the empty string does not throw — the JavaScript
truthiness check skips the validation for falsy strings, normalizes to
`"none"` and registers it. -/
theorem claim_C8_restrict_counterexample :
    ("" ∈ validPerms → False) ∧
    Restrict (some "") = .ok Perm.none ∧
    restrictDecl [] "f" (some "") = ([("f", Perm.none)], Option.none) :=
  ⟨by decide, rfl, rfl⟩

/-- Claim C8 (amended): declaring a non-empty permission string outside
the valid set throws `Invalid permission` at declaration time,
before any association is made, so the registry is unchanged; a missing
permission argument (and the empty string, which JavaScript truthiness
conflates with it) registers `"none"`. -/
theorem claim_C8_restrict_amended :
    (∀ p, p ≠ "" → p ∉ validPerms →
      Restrict (some p) = .error ("Invalid permission: " ++ p)) ∧
    Restrict Option.none = .ok Perm.none ∧
    Restrict (some "") = .ok Perm.none ∧
    (∀ perms key p, p ≠ "" → p ∉ validPerms →
      restrictDecl perms key (some p) = (perms, some ("Invalid permission: " ++ p))) ∧
    (∀ perms key, restrictDecl perms key Option.none =
      ((key, Perm.none) :: perms, Option.none)) := by
  have hbase : ∀ p, p ≠ "" → p ∉ validPerms →
      Restrict (some p) = .error ("Invalid permission: " ++ p) := by
    intro p hne hmem
    simp only [validPerms, List.mem_cons, List.mem_singleton, not_or] at hmem
    obtain ⟨h1, h2, h3, h4⟩ := hmem
    simp [Restrict, hne, parsePerm, h1, h2, h3, h4]
  refine ⟨hbase, rfl, rfl, ?_, fun perms key => rfl⟩
  intro perms key p hne hmem
  simp [restrictDecl, hbase p hne hmem]

/-- Witness for C8: declaring the permission "bogus" throws and leaves the registry
unchanged. -/
theorem claim_C8_restrict_amended_witness :
    Restrict (some "bogus") = .error ("Invalid permission: " ++ "bogus") ∧
    restrictDecl [("f", Perm.r)] "g" (some "bogus") =
      ([("f", Perm.r)], some ("Invalid permission: " ++ "bogus")) :=
  ⟨claim_C8_restrict_amended.1 "bogus" (by decide) (by decide),
   claim_C8_restrict_amended.2.2.2.1 [("f", Perm.r)] "g" "bogus" (by decide) (by decide)⟩

/-- Claim C5: a `write` whose first segment does not delegate to a
nested store and whose effective permission forbids writing (declared
`r`, or undeclared under a default policy without `w`) fails with the
permission error and leaves every field of the store unchanged. -/
theorem claim_C5_write_denied (s : Store) (path : String) (v : JSVal)
    (hnd : ¬(1 < (jsSplit path).length ∧
      (lookupD s.fields (headKey (jsSplit path))).isStore = true))
    (hperm : lookupPerm s.perms (headKey (jsSplit path)) = some Perm.r ∨
      (lookupPerm s.perms (headKey (jsSplit path)) = Option.none ∧
        permIncludesW s.defaultPolicy = false)) :
    s.write path v = (s, some .noPermissionWrite) := by
  have hw : s.allowedToWrite (headKey (jsSplit path)) = false := by
    unfold Store.allowedToWrite
    rcases hperm with h | ⟨h, h'⟩
    · rw [h]; rfl
    · rw [h]; exact h'
  have hsc : (if 1 < (jsSplit path).length then
      asStore (lookupD s.fields (headKey (jsSplit path)))
      else Option.none) = Option.none := by
    split
    · next hlen =>
      have hb : (lookupD s.fields (headKey (jsSplit path))).isStore = false := by
        rcases Bool.eq_false_or_eq_true
            (lookupD s.fields (headKey (jsSplit path))).isStore with hc | hc
        · exact absurd ⟨hlen, hc⟩ hnd
        · exact hc
      exact asStore_none hb
    · rfl
  unfold Store.write
  split
  · next t heq => rw [hsc] at heq; cases heq
  · next heq => simp [hw]

/-- Witness for C5: a denied two-segment write on a store whose first
segment holds a plain number under a read-only default policy. -/
theorem claim_C5_write_denied_witness :
    (Store.mk Perm.r [] [("x", JSVal.numV 1)]).write "x:y" (JSVal.numV 2) =
      (Store.mk Perm.r [] [("x", JSVal.numV 1)], some .noPermissionWrite) :=
  claim_C5_write_denied ⟨Perm.r, [], [("x", JSVal.numV 1)]⟩ "x:y" (JSVal.numV 2)
    (by decide) (Or.inr ⟨rfl, rfl⟩)

/-- Claim C1: on a multi-segment path whose first segment currently
holds a nested store, `read` and `write` delegate to the nested store on
the remaining path joined by `":"` with no permission check of the outer
store (the delegating `write` keeps the in-place-mutated nested store in
the outer field); in particular, with the nested store declaring
field as "rw" under default policy "none", `S.read "inner:field"`
succeeds even when `S.defaultPolicy` is `"none"`, and
`S.read "inner:otherField"` is denied even when `S.defaultPolicy` is
`"rw"`. -/
theorem claim_C1_delegation :
    (∀ (s t : Store) (path : String),
      1 < (jsSplit path).length →
      lookupD s.fields (headKey (jsSplit path)) = t.toVal →
      s.read path = t.read (joinSegs ((jsSplit path).drop 1))) ∧
    (∀ (s t : Store) (path : String) (v : JSVal),
      1 < (jsSplit path).length →
      lookupD s.fields (headKey (jsSplit path)) = t.toVal →
      s.write path v =
        ({ s with fields := (setField s.fields (headKey (jsSplit path))
            ((t.write (joinSegs ((jsSplit path).drop 1)) v).1.toVal)) },
         (t.write (joinSegs ((jsSplit path).drop 1)) v).2)) ∧
    ((Store.mk Perm.none [] [("inner", (Store.mk Perm.none [("field", Perm.rw)]
        [("field", JSVal.numV 42)]).toVal)]).read "inner:field" = .ok (.numV 42)) ∧
    ((Store.mk Perm.rw [] [("inner", (Store.mk Perm.none [("field", Perm.rw)]
        [("field", JSVal.numV 42)]).toVal)]).read "inner:otherField" =
      .error .noPermissionRead) := by
  refine ⟨?_, ?_, ?_, ?_⟩
  · intro s t path hlen hf
    conv_lhs => unfold Store.read
    split
    · next t' heq =>
      rw [if_pos hlen, hf, asStore_toVal] at heq
      cases heq
      rfl
    · next heq =>
      rw [if_pos hlen, hf, asStore_toVal] at heq
      cases heq
  · intro s t path v hlen hf
    conv_lhs => unfold Store.write
    split
    · next t' heq =>
      rw [if_pos hlen, hf, asStore_toVal] at heq
      cases heq
      rfl
    · next heq =>
      rw [if_pos hlen, hf, asStore_toVal] at heq
      cases heq
  · simp [Store.read, jsSplit, splitColon, headKey, lookupD, lookupField, asStore,
      Store.allowedToRead, lookupPerm, permIncludesR, Store.toVal, performRead,
      performReadEmpty, getProp, joinSegs, callIfFn]
  · simp [Store.read, jsSplit, splitColon, headKey, lookupD, lookupField, asStore,
      Store.allowedToRead, lookupPerm, permIncludesR, Store.toVal, performRead,
      performReadEmpty, getProp, joinSegs, callIfFn]

/-- Witness for C1: the delegation equations applied to a concrete outer
store with default policy `'none'` holding a nested readable store. -/
theorem claim_C1_delegation_witness :
    (Store.mk Perm.none [] [("inner", (Store.mk Perm.rw [] [("a", JSVal.numV 7)]).toVal)]).read
        "inner:a" =
      (Store.mk Perm.rw [] [("a", JSVal.numV 7)]).read "a" ∧
    (Store.mk Perm.none [] [("inner", (Store.mk Perm.rw [] [("a", JSVal.numV 7)]).toVal)]).write
        "inner:a" (JSVal.numV 8) =
      (Store.mk Perm.none []
        (setField [("inner", (Store.mk Perm.rw [] [("a", JSVal.numV 7)]).toVal)] "inner"
          (((Store.mk Perm.rw [] [("a", JSVal.numV 7)]).write "a" (JSVal.numV 8)).1.toVal)),
       ((Store.mk Perm.rw [] [("a", JSVal.numV 7)]).write "a" (JSVal.numV 8)).2) :=
  ⟨claim_C1_delegation.1 _ _ "inner:a" (by decide) rfl,
   claim_C1_delegation.2.1 _ _ "inner:a" (JSVal.numV 8) (by decide) rfl⟩

/-- The final unwrap leaves a non-function value unchanged. -/
theorem callIfFn_not_fn {v : JSVal} (h : v.isFn = false) : callIfFn v = v := by
  cases v <;> simp_all [JSVal.isFn, callIfFn]

/-- One-segment traversal of a plain (non-store, non-function) property
returns it directly. -/
theorem performRead_single {c : JSVal} {k : String} {v : JSVal}
    (h : getProp c k = .ok v) (hs : v.isStore = false) (hf : v.isFn = false) :
    performRead [k] c = .ok v := by
  unfold performRead
  split
  · next e heq => rw [h] at heq; cases heq
  · next d p f heq => rw [h] at heq; cases heq; simp [JSVal.isStore] at hs
  · next r heq => rw [h] at heq; cases heq; simp [JSVal.isFn] at hf
  · next v' heq h1 h2 => rw [h] at h2; exact h2.symm

/-- Claim C6: a function-valued result is invoked and its return value
used — at the top level of `read`, at the final segment of a nested
traversal, and when a traversal passes through a function-valued entry
(the traversal continues into the function's return value). -/
theorem claim_C6_lazy_functions :
    (∀ (s : Store) (path key : String) (r : JSVal),
      jsSplit path = [key] →
      s.allowedToRead key = true →
      lookupD s.fields key = .fn r →
      s.read path = .ok r) ∧
    (∀ (k : String) (rest : List String) (current r : JSVal),
      rest ≠ [] →
      getProp current k = .ok (.fn r) →
      performRead (k :: rest) current = performRead rest r) ∧
    (∀ (k : String) (current r : JSVal),
      getProp current k = .ok (.fn r) →
      performRead [k] current = .ok r) ∧
    (∀ (s : Store) (path : String) (r : JSVal),
      1 < (jsSplit path).length →
      (lookupD s.fields (headKey (jsSplit path))).isStore = false →
      s.allowedToRead (headKey (jsSplit path)) = true →
      performRead (jsSplit path) s.toVal = .ok (.fn r) →
      s.read path = .ok r) := by
  refine ⟨?_, ?_, ?_, ?_⟩
  · intro s path key r hsplit hallow hf
    unfold Store.read
    split
    · next t heq =>
      rw [hsplit] at heq
      simp at heq
    · next heq =>
      rw [hsplit]
      simp [headKey, hallow, hf, callIfFn]
  · intro k rest current r hne hg
    cases rest with
    | nil => exact absurd rfl hne
    | cons j rest' =>
      simp only [performRead, hg]
  · intro k current r hg
    simp only [performRead, hg]
  · intro s path r hlen hns hallow hpr
    unfold Store.read
    split
    · next t heq =>
      rw [if_pos hlen, asStore_none hns] at heq
      cases heq
    · next heq =>
      simp [hallow, hlen, hpr, callIfFn]

/-- Witness for C6: reading a field holding `() => 5` yields `5`. -/
theorem claim_C6_lazy_functions_witness :
    (Store.mk Perm.rw [] [("f", JSVal.fn (JSVal.numV 5))]).read "f" =
      .ok (JSVal.numV 5) :=
  claim_C6_lazy_functions.1 ⟨Perm.rw, [], [("f", JSVal.fn (JSVal.numV 5))]⟩
    "f" "f" (JSVal.numV 5) rfl rfl rfl

/-- Traversal that has recursed into `undefined` fails at the very next
property access, whatever segments remain. -/
theorem performRead_into_undefined : ∀ (keys : List String),
    performRead keys JSVal.undefined = .error .typeError := by
  intro keys
  cases keys with
  | nil =>
    show performReadEmpty .undefined = _
    unfold performReadEmpty
    split <;> simp_all [getProp]
  | cons k rest =>
    cases rest with
    | nil => simp only [performRead, getProp]
    | cons j rest' => simp only [performRead, getProp]

/-- Counterexample for C2: on an empty store with default policy `rw`,
the field `"x"` is absent and readable, yet `read("x:y")` raises a
`TypeError` (the traversal recurses into `undefined` and the next
property access throws) instead of returning `undefined`. -/
theorem claim_C2_missing_counterexample :
    lookupField ([] : List (String × JSVal)) "x" = Option.none ∧
    (Store.mk .rw [] []).allowedToRead "x" = true ∧
    (Store.mk .rw [] []).read "x:y" = .error .typeError := by
  refine ⟨rfl, rfl, ?_⟩
  simp [Store.read, jsSplit, splitColon, headKey, lookupD, lookupField, asStore,
    Store.allowedToRead, lookupPerm, permIncludesR, Store.toVal, performRead,
    performReadEmpty, getProp]

/-- Claim C2 (amended): when a read's traversal reaches a missing field,
the outcome depends on its position — a missing *final* segment yields
`undefined`, but a missing field with segments still remaining makes the
traversal recurse into `undefined` and the next property access raises a
`TypeError`, at every remaining depth. -/
theorem claim_C2_missing_amended :
    (∀ (keys : List String), performRead keys JSVal.undefined = .error .typeError) ∧
    (∀ (l : List (String × JSVal)) (k : String),
      lookupField l k = Option.none →
      performRead [k] (.obj l) = .ok .undefined) ∧
    (∀ (s : Store) (key j : String) (rest : List String) (path : String),
      jsSplit path = key :: j :: rest →
      lookupField s.fields key = Option.none →
      s.allowedToRead key = true →
      s.read path = .error .typeError) := by
  refine ⟨performRead_into_undefined, ?_, ?_⟩
  · intro l k hlk
    have hg : getProp (JSVal.obj l) k = .ok .undefined := by
      simp [getProp, lookupD, hlk]
    simp only [performRead, hg]
  · intro s key j rest path hsplit hlk hallow
    have hlen : 1 < (jsSplit path).length := by
      rw [hsplit]
      simp only [List.length_cons]
      omega
    have hkey : headKey (jsSplit path) = key := by
      rw [hsplit]; rfl
    have hpr : performRead (jsSplit path) s.toVal = .error .typeError := by
      rw [hsplit]
      have hg : getProp s.toVal key = .ok .undefined := by
        simp [Store.toVal, getProp, lookupD, hlk]
      simp only [performRead, hg]
      exact performRead_into_undefined (j :: rest)
    unfold Store.read
    split
    · next t heq =>
      rw [if_pos hlen, hkey] at heq
      simp [lookupD, hlk, asStore] at heq
    · next heq =>
      rw [hkey]
      simp [hallow, hlen, hpr]

/-- Witness for C2 (amended): the missing-final-segment case and the
missing-intermediate case at a concrete store. -/
theorem claim_C2_missing_amended_witness :
    performRead ["y"] (.obj [("a", JSVal.numV 1)]) = .ok .undefined ∧
    (Store.mk .rw [] [("k", JSVal.numV 3)]).read "x:y:z" = .error .typeError :=
  ⟨claim_C2_missing_amended.2.1 [("a", JSVal.numV 1)] "y" rfl,
   claim_C2_missing_amended.2.2 ⟨.rw, [], [("k", JSVal.numV 3)]⟩ "x" "y" ["z"]
     "x:y:z" rfl rfl rfl⟩

/-- Counterexample for C3: the entry `"x"` is present (it holds the
number `0`), yet writing `"x:y"` replaces it by a freshly created empty
object (which then receives `y`) — the or-else-empty-object expression vivifies every
falsy value, not only absent ones, and does not recurse into the present
value `0`. -/
theorem claim_C3_vivify_counterexample :
    lookupField [("x", JSVal.numV 0)] "x" = some (.numV 0) ∧
    (Store.mk .rw [] [("x", .numV 0)]).write "x:y" (.numV 7) =
      (Store.mk .rw [] [("x", .obj [("y", .numV 7)])], Option.none) := by
  refine ⟨rfl, ?_⟩
  unfold Store.write
  split
  · next t heq => simp [jsSplit, splitColon, headKey, lookupD, lookupField, asStore] at heq
  · next heq =>
    simp [jsSplit, splitColon, headKey, Store.allowedToWrite, lookupPerm, permIncludesW,
      Store.toVal, performWrite, getProp, lookupD, lookupField, JSVal.isStore, vivify,
      truthy, setProp, setPropD, setField, JSVal.toStoreD]

/-- Claim C3 (amended): in the nested write, when segments remain and the
current entry is not a nested store, a fresh empty plain object replaces
the entry if and only if the entry's current value is falsy (absent or
`undefined`, `null`, `false`, `0`, `""`); a truthy entry is recursed into
unchanged.  In particular writing `"x:y"` on a store where `x` is absent
makes `x` a plain object — not a store — such that a subsequent
`read("x:y")` returns the written value. -/
theorem claim_C3_vivify_amended :
    (∀ (l : List (String × JSVal)) (k : String) (j : String) (rest : List String)
       (v : JSVal),
      (lookupD l k).isStore = false →
      truthy (lookupD l k) = false →
      performWrite (k :: j :: rest) v (.obj l) =
        ((.obj (setField l k (performWrite (j :: rest) v (.obj [])).1)),
         (performWrite (j :: rest) v (.obj [])).2)) ∧
    (∀ (l : List (String × JSVal)) (k : String) (j : String) (rest : List String)
       (v : JSVal),
      (lookupD l k).isStore = false →
      truthy (lookupD l k) = true →
      performWrite (k :: j :: rest) v (.obj l) =
        ((.obj (setField l k (performWrite (j :: rest) v (lookupD l k)).1)),
         (performWrite (j :: rest) v (lookupD l k)).2)) ∧
    (∀ (fs : List (String × JSVal)) (v : JSVal),
      lookupField fs "x" = Option.none →
      v.isStore = false → v.isFn = false →
      ((Store.mk .rw [] fs).write "x:y" v).2 = Option.none ∧
      lookupD ((Store.mk .rw [] fs).write "x:y" v).1.fields "x" = .obj [("y", v)] ∧
      ((Store.mk .rw [] fs).write "x:y" v).1.read "x:y" = .ok v) := by
  refine ⟨?_, ?_, ?_⟩
  · intro l k j rest v hns htr
    have hg : getProp (JSVal.obj l) k = .ok (lookupD l k) := by simp [getProp]
    simp only [performWrite, hg, hns, vivify, htr, Bool.false_eq_true, if_false,
      setProp, setPropD, Option.getD_some, setField_setField]
  · intro l k j rest v hns htr
    have hg : getProp (JSVal.obj l) k = .ok (lookupD l k) := by simp [getProp]
    simp only [performWrite, hg, hns, vivify, htr, Bool.false_eq_true, if_false,
      if_true, setProp, setPropD, Option.getD_some, setField_setField]
  · intro fs v hlx hvs hvf
    have hwrite : (Store.mk .rw [] fs).write "x:y" v =
        (Store.mk .rw [] (setField fs "x" (.obj [("y", v)])), Option.none) := by
      unfold Store.write
      split
      · next t heq =>
        simp [jsSplit, splitColon, headKey, lookupD, hlx, asStore] at heq
      · next heq =>
        have hpw : performWrite ["x", "y"] v (JSVal.store .rw [] fs) =
            (.store .rw [] (setField fs "x" (.obj [("y", v)])), Option.none) := by
          simp [performWrite, getProp, lookupD, hlx, JSVal.isStore, vivify, truthy,
            setProp, setPropD, setField_setField, setField]
        simp [jsSplit, splitColon, headKey, Store.allowedToWrite, lookupPerm,
          permIncludesW, Store.toVal, hpw, JSVal.toStoreD, setField]
    refine ⟨by rw [hwrite], ?_, ?_⟩
    · rw [hwrite]
      simp [lookupD, lookupField_setField_self]
    · rw [hwrite]
      unfold Store.read
      split
      · next t heq =>
        simp [jsSplit, splitColon, headKey, lookupD, lookupField_setField_self,
          asStore] at heq
      · next heq =>
        have hpr : performRead ["x", "y"]
            (JSVal.store .rw [] (setField fs "x" (.obj [("y", v)]))) = .ok v := by
          have hg : getProp (JSVal.store .rw [] (setField fs "x" (.obj [("y", v)]))) "x" =
              .ok (.obj [("y", v)]) := by
            simp [getProp, lookupD, lookupField_setField_self]
          simp only [performRead, hg]
          exact performRead_single (by simp [getProp, lookupD, lookupField]) hvs hvf
        simp [jsSplit, splitColon, headKey, Store.allowedToRead, lookupPerm,
          permIncludesR, Store.toVal, hpr, callIfFn_not_fn hvf]

/-- Witness for C3 (amended): the falsy/truthy vivification equations and
the auto-vivification round trip on concrete stores. -/
theorem claim_C3_vivify_amended_witness :
    performWrite ["x", "y"] (.numV 7) (.obj [("x", JSVal.jsNull)]) =
      ((.obj (setField [("x", JSVal.jsNull)] "x"
          (performWrite ["y"] (.numV 7) (.obj [])).1)),
       (performWrite ["y"] (.numV 7) (.obj [])).2) ∧
    ((Store.mk .rw [] []).write "x:y" (.numV 7)).1.read "x:y" = .ok (.numV 7) :=
  ⟨claim_C3_vivify_amended.1 [("x", JSVal.jsNull)] "x" "y" [] (.numV 7) rfl rfl,
   (claim_C3_vivify_amended.2.2 [] (.numV 7) rfl rfl rfl).2.2⟩

/-- Characterisation of the empty-key traversal on a store value: it
depends only on the store's fields. -/
theorem performReadEmpty_store_eq (d : Perm) (ps : List (String × Perm))
    (f : List (String × JSVal)) :
    performReadEmpty (.store d ps f) =
      (match lookupD f "undefined" with
       | .store d2 p2 f2 => performReadEmpty (.store d2 p2 f2)
       | .fn r => performReadEmpty r
       | v => .ok v) := by
  conv_lhs => unfold performReadEmpty
  split
  · next e heq => simp [getProp] at heq
  · next d2 p2 f2 heq =>
    simp only [getProp, Except.ok.injEq] at heq
    rw [heq]
  · next r heq =>
    simp only [getProp, Except.ok.injEq] at heq
    rw [heq]
  · next v heq h1 h2 =>
    simp only [getProp, Except.ok.injEq] at h2
    rw [h2]
    cases v <;> simp_all

/-- Claim C9: on a multi-segment path that does not delegate at the
first segment, only the first segment's effective permission is
consulted — the permission error is raised exactly when that permission
forbids the operation, and the traversal itself never consults any
permission registry: its result on a store is fully determined by the
store's default policy and fields, whatever the registry holds. -/
theorem claim_C9_first_segment_only :
    (∀ (s : Store) (path : String),
      1 < (jsSplit path).length →
      (lookupD s.fields (headKey (jsSplit path))).isStore = false →
      (s.read path = .error .noPermissionRead ↔
        s.allowedToRead (headKey (jsSplit path)) = false)) ∧
    (∀ (s : Store) (path : String) (v : JSVal),
      1 < (jsSplit path).length →
      (lookupD s.fields (headKey (jsSplit path))).isStore = false →
      ((s.write path v).2 = some .noPermissionWrite ↔
        s.allowedToWrite (headKey (jsSplit path)) = false)) ∧
    (∀ (keys : List String) (d : Perm) (ps ps' : List (String × Perm))
       (f : List (String × JSVal)),
      performRead keys (.store d ps f) = performRead keys (.store d ps' f)) ∧
    (∀ (keys : List String) (v : JSVal) (d : Perm)
       (ps ps' : List (String × Perm)) (f : List (String × JSVal)),
      ∃ f' e, performWrite keys v (.store d ps f) = (.store d ps f', e) ∧
              performWrite keys v (.store d ps' f) = (.store d ps' f', e)) := by
  refine ⟨?_, ?_, ?_, ?_⟩
  · intro s path hlen hns
    have hsc : (if 1 < (jsSplit path).length then
        asStore (lookupD s.fields (headKey (jsSplit path)))
        else Option.none) = Option.none := by
      rw [if_pos hlen]
      exact asStore_none hns
    unfold Store.read
    split
    · next t heq => rw [hsc] at heq; cases heq
    · next heq =>
      cases hA : s.allowedToRead (headKey (jsSplit path)) with
      | false => simp [hA]
      | true =>
        simp only [hA, if_true]
        rw [if_pos hlen]
        constructor
        · intro h
          split at h
          · simp at h
          · next e heq2 =>
            simp only [Except.error.injEq] at h
            have := performRead_err _ _ _ heq2
            subst h
            simp at this
        · intro h
          simp at h
  · intro s path v hlen hns
    have hsc : (if 1 < (jsSplit path).length then
        asStore (lookupD s.fields (headKey (jsSplit path)))
        else Option.none) = Option.none := by
      rw [if_pos hlen]
      exact asStore_none hns
    unfold Store.write
    split
    · next t heq => rw [hsc] at heq; cases heq
    · next heq =>
      cases hA : s.allowedToWrite (headKey (jsSplit path)) with
      | false => simp [hA]
      | true =>
        simp only [hA, if_true]
        constructor
        · intro h
          have := performWrite_err _ _ _ _ h
          simp at this
        · intro h
          simp at h
  · intro keys d ps ps' f
    cases keys with
    | nil =>
      show performReadEmpty _ = performReadEmpty _
      rw [performReadEmpty_store_eq, performReadEmpty_store_eq]
    | cons k rest =>
      have h1 : getProp (JSVal.store d ps f) k = .ok (lookupD f k) := rfl
      have h2 : getProp (JSVal.store d ps' f) k = .ok (lookupD f k) := rfl
      cases rest with
      | nil => simp only [performRead, h1, h2]
      | cons j rest' => simp only [performRead, h1, h2]
  · intro keys v d ps ps' f
    cases keys with
    | nil => exact ⟨setField f "undefined" v, Option.none, rfl, rfl⟩
    | cons k rest =>
      cases rest with
      | nil => exact ⟨setField f k v, Option.none, rfl, rfl⟩
      | cons j rest' =>
        have h1 : getProp (JSVal.store d ps f) k = .ok (lookupD f k) := rfl
        have h2 : getProp (JSVal.store d ps' f) k = .ok (lookupD f k) := rfl
        cases hS : (lookupD f k).isStore with
        | true =>
          refine ⟨setField f k (performWrite (j :: rest') v (lookupD f k)).1,
            (performWrite (j :: rest') v (lookupD f k)).2, ?_, ?_⟩ <;>
            simp only [performWrite, h1, h2, hS, if_true, setPropD, setProp,
              Option.getD_some]
        | false =>
          refine ⟨setField (setField f k (vivify (lookupD f k))) k
              (performWrite (j :: rest') v (vivify (lookupD f k))).1,
            (performWrite (j :: rest') v (vivify (lookupD f k))).2, ?_, ?_⟩ <;>
            simp only [performWrite, h1, h2, hS, Bool.false_eq_true, if_false,
              setProp, setPropD, Option.getD_some]

/-- Witness for C9: the permission-error equivalences at a concrete
store whose first segment holds a plain object, and the
registry-independence equations at a concrete key list. -/
theorem claim_C9_first_segment_only_witness :
    ((Store.mk Perm.none [] [("a", JSVal.obj [("b", JSVal.numV 1)])]).read "a:b" =
        .error .noPermissionRead ↔
      (Store.mk Perm.none [] [("a", JSVal.obj [("b", JSVal.numV 1)])]).allowedToRead "a" =
        false) ∧
    performRead ["a", "b"] (.store Perm.rw [("b", Perm.none)]
        [("a", JSVal.obj [("b", JSVal.numV 1)])]) =
      performRead ["a", "b"] (.store Perm.rw []
        [("a", JSVal.obj [("b", JSVal.numV 1)])]) :=
  ⟨claim_C9_first_segment_only.1
      ⟨Perm.none, [], [("a", JSVal.obj [("b", JSVal.numV 1)])]⟩ "a:b"
      (by decide) rfl,
   claim_C9_first_segment_only.2.2.1 ["a", "b"] Perm.rw [("b", Perm.none)] []
     [("a", JSVal.obj [("b", JSVal.numV 1)])]⟩
